import Mathlib

/-!
Shallow embedding of the asynchronous task-polling and deduplication subsystem
of the repository (packages/core/src/tools/audio-generator.ts,
packages/core/src/tools/audio-generator-dedup.ts, and the structurally identical
poll loop of packages/core/src/tools/scene-timing.ts).

Timestamps are modelled as `Int` milliseconds (JavaScript `Date.now()` values and
their differences).  The JavaScript `Map` backing the deduplicator registry is
modelled as an insertion-ordered association list, with `Map.set` keeping the
original position of an existing key and appending a fresh key, and iteration
visiting entries in insertion order — the documented semantics of `Map`.
-/

namespace AudioDedup

/-- Task lifecycle states of `ActiveTask.status`
(audio-generator-dedup.ts line 13). -/
inductive TaskStatus where
  | pending
  | processing
  | completed
  | failed
deriving DecidableEq, Repr

/-- One registry record (interface `ActiveTask`, audio-generator-dedup.ts
lines 8-14). -/
structure ActiveTask where
  taskId : String
  textHash : String
  voice : String
  startTime : Int
  status : TaskStatus
deriving DecidableEq, Repr

/-- `TASK_EXPIRY_MS = 10 * 60 * 1000` (audio-generator-dedup.ts line 19). -/
def TASK_EXPIRY_MS : Int := 10 * 60 * 1000

/-- The deduplicator's `activeTasks` map, as an insertion-ordered association
list from task id to record. -/
abbrev Registry := List (String × ActiveTask)

/-- Injective stand-in for `crypto.createHash(sha256).update(s).digest(hex)`:
the digest of the external Node crypto library is modelled by the hashed
content string itself, i.e. as a collision-free digest function. -/
def sha256Model (s : String) : String := s

/-- `generateContentHash` (audio-generator-dedup.ts lines 40-43): hashes
`text ++ "|" ++ voice ++ "|" ++ (instructions || "")`. -/
def generateContentHash (text voice : String) (instructions : Option String) : String :=
  sha256Model (text ++ "|" ++ voice ++ "|" ++ instructions.getD "")

/-- `task.status === pending || task.status === processing`
(audio-generator-dedup.ts line 53). -/
def isActiveStatus : TaskStatus → Bool
  | .pending => true
  | .processing => true
  | .completed => false
  | .failed => false

/-- The condition under which the loop body of `findActiveTask`
(audio-generator-dedup.ts lines 51-62) returns a task: hash match, active
status, and `Date.now() - task.startTime < TASK_EXPIRY_MS`. -/
def matchesActive (contentHash : String) (now : Int) (task : ActiveTask) : Bool :=
  task.textHash == contentHash && isActiveStatus task.status
    && decide (now - task.startTime < TASK_EXPIRY_MS)

/-- The `for (const [taskId, task] of this.activeTasks)` loop of
`findActiveTask`: first entry in insertion order satisfying `matchesActive`
is returned, else `null`. -/
def findActiveTaskAux (contentHash : String) (now : Int) :
    List (String × ActiveTask) → Option ActiveTask
  | [] => none
  | entry :: rest =>
    if matchesActive contentHash now entry.2 then some entry.2
    else findActiveTaskAux contentHash now rest

/-- `findActiveTask` (audio-generator-dedup.ts lines 48-65), with the implicit
`Date.now()` made an explicit `now` argument. -/
def findActiveTask (reg : Registry) (now : Int) (text voice : String)
    (instructions : Option String) : Option ActiveTask :=
  findActiveTaskAux (generateContentHash text voice instructions) now reg

/-- JavaScript `Map.set`: replace the value in place when the key is present
(insertion order preserved), append otherwise. -/
def mapSet (reg : Registry) (k : String) (v : ActiveTask) : Registry :=
  if reg.any (fun p => p.1 == k) then
    reg.map (fun p => if p.1 == k then (p.1, v) else p)
  else
    reg ++ [(k, v)]

/-- `registerTask` (audio-generator-dedup.ts lines 70-83): inserts a record
with the content hash of the request, `startTime = Date.now()` (the explicit
`now`), and status `processing`. -/
def registerTask (reg : Registry) (taskId text voice : String)
    (instructions : Option String) (now : Int) : Registry :=
  mapSet reg taskId
    { taskId := taskId
      textHash := generateContentHash text voice instructions
      voice := voice
      startTime := now
      status := .processing }

/-- The `status: completed | failed` parameter type of `updateTaskStatus`
(audio-generator-dedup.ts line 88). -/
inductive TerminalStatus where
  | completed
  | failed
deriving DecidableEq, Repr

/-- Embedding of a `TerminalStatus` argument into the stored status field. -/
def TerminalStatus.toStatus : TerminalStatus → TaskStatus
  | .completed => .completed
  | .failed => .failed

/-- Immediate effect of `updateTaskStatus` (audio-generator-dedup.ts
lines 88-99): `get(taskId)` and, when found, mutate that record's `status`
field; when absent, nothing happens.  (The `setTimeout` scheduling deletion
5000 ms later is a separate deferred effect, not part of this update.) -/
def updateTaskStatus (reg : Registry) (taskId : String) (st : TerminalStatus) :
    Registry :=
  reg.map (fun p =>
    if p.1 == taskId then (p.1, { p.2 with status := st.toStatus }) else p)

end AudioDedup

namespace AudioPoll

open AudioDedup

/-- The four observable outcomes of one status-check attempt inside
`pollForCompletion` (audio-generator.ts lines 311-341): the parsed response
has `status === completed` (with `audio_url` and optional `duration`),
`status === failed` (with optional error message), some other status (still
processing), or the fetch raised / `!response.ok` — a transient error that
lands in the `catch` block. -/
inductive StatusResult where
  | completed (audioUrl : String) (duration : Option Int)
  | failed (error : Option String)
  | inProgress
  | transientError
deriving DecidableEq, Repr

/-- How one `pollForCompletion` call ends: a returned success object, a
returned `{success: false}` object, a thrown cancellation error, a transient
error rethrown on the last attempt, or the thrown timeout error after the
loop. -/
inductive PollResult where
  | success (audioUrl : String) (duration : Option Int)
  | failureResult (error : Option String)
  | thrownCancelled
  | thrownTransient
  | thrownTimeout
deriving DecidableEq, Repr

/-- Observable account of one poll loop run: its result, how many times the
status endpoint was queried (`fetch` calls inside the loop), and the virtual
time at return (total milliseconds slept, sleeps being the only modelled
passage of time). -/
structure PollTrace where
  result : PollResult
  calls : Nat
  elapsed : Int
deriving DecidableEq, Repr

/-- `signal.aborted` at virtual time `now`, for a cancellation signal that
fires at time `cancelAt` (never fires when `none`). -/
def isAborted (cancelAt : Option Int) (now : Int) : Bool :=
  match cancelAt with
  | none => false
  | some c => decide (c ≤ now)

/-- The `for (let attempt = 0; attempt < maxAttempts; attempt++)` loop of
`pollForCompletion` (audio-generator.ts lines 306-356; scene-timing.ts
lines 265-338 is the same loop with `maxAttempts = 300`, `pollInterval =
3000`).  `remaining` counts the loop iterations still allowed, so the
current attempt index is `m - remaining`; each iteration first checks
`signal.aborted` and throws cancellation, then performs the status check:
a terminal status returns immediately with no sleep; an in-progress status
sleeps `p` ms and continues; a transient error is rethrown when
`attempt === maxAttempts - 1` (i.e. `remaining = 1`) and otherwise sleeps
`p` ms and continues.  When the budget is exhausted the timeout error is
thrown. -/
def pollAux (check : Nat → StatusResult) (cancelAt : Option Int) (p : Int)
    (m : Nat) : Nat → Nat → Int → PollTrace
  | 0, calls, now => ⟨.thrownTimeout, calls, now⟩
  | r + 1, calls, now =>
    if isAborted cancelAt now then ⟨.thrownCancelled, calls, now⟩
    else
      match check (m - (r + 1)) with
      | .completed url d => ⟨.success url d, calls + 1, now⟩
      | .failed e => ⟨.failureResult e, calls + 1, now⟩
      | .inProgress => pollAux check cancelAt p m r (calls + 1) (now + p)
      | .transientError =>
        if r = 0 then ⟨.thrownTransient, calls + 1, now⟩
        else pollAux check cancelAt p m r (calls + 1) (now + p)

/-- `pollForCompletion` of audio-generator.ts (lines 297-356):
`maxAttempts = 150`, `pollInterval = 2000`, starting at attempt 0 with no
calls made and the clock at 0. -/
def pollForCompletion (check : Nat → StatusResult) (cancelAt : Option Int) :
    PollTrace :=
  pollAux check cancelAt 2000 150 150 0 0

/-- `pollForCompletion` of scene-timing.ts (lines 261-338): the same loop with
`maxAttempts = 300`, `pollInterval = 3000`. -/
def pollForCompletionScene (check : Nat → StatusResult)
    (cancelAt : Option Int) : PollTrace :=
  pollAux check cancelAt 3000 300 300 0 0

end AudioPoll

namespace AudioExec

/-- Submission behaviour of `AudioGeneratorTool.execute` (audio-generator.ts
lines 172-255): after `validateToolParams` (abstracted here as its returned
`validationError`) and the initial `signal.aborted` check, `execute` calls
`initiateAudioGeneration` — the backend submission — unconditionally.  No code
path of audio-generator.ts consults the `AudioGenerationDeduplicator`
(`audioDeduplicator`, `findActiveTask` and `registerTask` are referenced
nowhere outside audio-generator-dedup.ts itself); the registry argument is
taken only to record that the submission decision does not depend on it. -/
def executeSubmits (_reg : AudioDedup.Registry) (validationError : Option String)
    (aborted : Bool) : Bool :=
  validationError.isNone && !aborted

end AudioExec

namespace AudioDedup

lemma strAppend_cancel_right (a b c : String) (h : a ++ c = b ++ c) : a = b := by
  have hd := congrArg String.data h
  simp only [String.data_append] at hd
  exact String.ext (List.append_cancel_right hd)

lemma strAppend_cancel_left (a b c : String) (h : a ++ b = a ++ c) : b = c := by
  have hd := congrArg String.data h
  simp only [String.data_append] at hd
  exact String.ext (List.append_cancel_left hd)

lemma contentHash_text_inj (t₁ t₂ v : String) (i : Option String)
    (h : generateContentHash t₁ v i = generateContentHash t₂ v i) : t₁ = t₂ := by
  simp only [generateContentHash, sha256Model] at h
  have h₁ := strAppend_cancel_right _ _ _ h
  have h₂ := strAppend_cancel_right _ _ _ h₁
  have h₃ := strAppend_cancel_right _ _ _ h₂
  exact strAppend_cancel_right _ _ _ h₃

lemma contentHash_voice_inj (t v₁ v₂ : String) (i : Option String)
    (h : generateContentHash t v₁ i = generateContentHash t v₂ i) : v₁ = v₂ := by
  simp only [generateContentHash, sha256Model] at h
  have h₁ := strAppend_cancel_right _ _ _ h
  have h₂ := strAppend_cancel_right _ _ _ h₁
  exact strAppend_cancel_left _ _ _ h₂

lemma contentHash_instr_inj (t v : String) (i₁ i₂ : Option String)
    (h : generateContentHash t v i₁ = generateContentHash t v i₂) :
    i₁.getD "" = i₂.getD "" := by
  simp only [generateContentHash, sha256Model] at h
  have h₁ : (t ++ "|" ++ v ++ "|") ++ i₁.getD "" = (t ++ "|" ++ v ++ "|") ++ i₂.getD "" := by
    simpa [String.append_assoc] using h
  exact strAppend_cancel_left _ _ _ h₁

/-- C4 counterexample: with text and voice held fixed, the instructions
parameter values `none` (absent) and `some ""` (empty string) differ, yet
`generateContentHash` produces the same digest, because the source defaults
`instructions || ''`.  This refutes the claim that any one differing parameter
value always changes the digest. -/
theorem contentHash_absent_vs_empty_instructions :
    generateContentHash "Hello world" "zephyr" none
        = generateContentHash "Hello world" "zephyr" (some "")
      ∧ (none : Option String) ≠ some "" := by
  exact ⟨rfl, by decide⟩

/-- C4 (amended): `generateContentHash` is deterministic, and it is
distinguishing for the text and voice parameters (holding the others fixed);
a difference in the instructions parameter changes the digest exactly when
the two values still differ after the `instructions || ''` defaulting — in
particular absent instructions and empty-string instructions collide. -/
theorem contentHash_deterministic_and_distinguishing :
    (∀ t v i, generateContentHash t v i = generateContentHash t v i)
    ∧ (∀ t₁ t₂ v i, t₁ ≠ t₂ →
        generateContentHash t₁ v i ≠ generateContentHash t₂ v i)
    ∧ (∀ t v₁ v₂ i, v₁ ≠ v₂ →
        generateContentHash t v₁ i ≠ generateContentHash t v₂ i)
    ∧ (∀ t v i₁ i₂, i₁.getD "" ≠ i₂.getD "" →
        generateContentHash t v i₁ ≠ generateContentHash t v i₂) := by
  refine ⟨fun t v i => rfl, fun t₁ t₂ v i hne h => ?_, fun t v₁ v₂ i hne h => ?_,
    fun t v i₁ i₂ hne h => ?_⟩
  · exact hne (contentHash_text_inj t₁ t₂ v i h)
  · exact hne (contentHash_voice_inj t v₁ v₂ i h)
  · exact hne (contentHash_instr_inj t v i₁ i₂ h)

/-- Concrete instance of C4's theorem: differing texts with voice and
instructions fixed produce differing digests. -/
theorem contentHash_deterministic_and_distinguishing_witness :
    generateContentHash "Hello" "zephyr" none
      ≠ generateContentHash "Hello world" "zephyr" none :=
  contentHash_deterministic_and_distinguishing.2.1 "Hello" "Hello world" "zephyr" none
    (by decide)

lemma findActiveTaskAux_sound (h : String) (now : Int) :
    ∀ (reg : List (String × ActiveTask)) (task : ActiveTask),
      findActiveTaskAux h now reg = some task → matchesActive h now task = true := by
  intro reg
  induction reg with
  | nil => intro task hfind; simp [findActiveTaskAux] at hfind
  | cons entry rest ih =>
    intro task hfind
    by_cases hm : matchesActive h now entry.2 = true
    · simp only [findActiveTaskAux, hm, if_true, Option.some.injEq] at hfind
      exact hfind ▸ hm
    · simp only [findActiveTaskAux, hm, if_false] at hfind
      exact ih task hfind

lemma matchesActive_props (h : String) (now : Int) (task : ActiveTask)
    (hm : matchesActive h now task = true) :
    (task.status = TaskStatus.pending ∨ task.status = TaskStatus.processing)
      ∧ now - task.startTime < TASK_EXPIRY_MS := by
  simp only [matchesActive, Bool.and_eq_true, decide_eq_true_eq] at hm
  refine ⟨?_, hm.2⟩
  cases hstatus : task.status <;> simp [hstatus, isActiveStatus] at hm ⊢

lemma findActiveTaskAux_append_of_no_match (h : String) (now : Int) :
    ∀ (reg₁ reg₂ : List (String × ActiveTask)),
      (∀ p ∈ reg₁, matchesActive h now p.2 = false) →
      findActiveTaskAux h now (reg₁ ++ reg₂) = findActiveTaskAux h now reg₂ := by
  intro reg₁
  induction reg₁ with
  | nil => intro reg₂ _; rfl
  | cons entry rest ih =>
    intro reg₂ hnone
    have hentry : matchesActive h now entry.2 = false := hnone entry (by simp)
    simp only [List.cons_append, findActiveTaskAux, hentry, Bool.false_eq_true, if_false]
    exact ih reg₂ fun p hp => hnone p (by simp [hp])

/-- C5: `findActiveTask` returns a record only if its status is pending or
processing and `now - startTime < TASK_EXPIRY_MS`; in particular a record
created at `t0` is never the result of a query at `t0 + TASK_EXPIRY_MS + e`
for any `e ≥ 0`, whatever its status. -/
theorem findActive_only_active_unexpired :
    (∀ (reg : Registry) (now : Int) (t v : String) (i : Option String)
        (task : ActiveTask), findActiveTask reg now t v i = some task →
      (task.status = TaskStatus.pending ∨ task.status = TaskStatus.processing)
        ∧ now - task.startTime < TASK_EXPIRY_MS)
    ∧ (∀ (reg : Registry) (t v : String) (i : Option String) (t0 e : Int)
        (task : ActiveTask), 0 ≤ e → task.startTime = t0 →
      findActiveTask reg (t0 + TASK_EXPIRY_MS + e) t v i ≠ some task) := by
  constructor
  · intro reg now t v i task hfind
    exact matchesActive_props _ _ _ (findActiveTaskAux_sound _ _ reg task hfind)
  · intro reg t v i t0 e task he hstart hfind
    have hprops := matchesActive_props _ _ _ (findActiveTaskAux_sound _ _ reg task hfind)
    have hage := hprops.2
    rw [hstart] at hage
    omega

/-- Concrete instance of C5's theorem: a record registered at time 0 whose
status is still processing is absent from `findActiveTask` at time
`TASK_EXPIRY_MS + 5`. -/
theorem findActive_only_active_unexpired_witness :
    findActiveTask
        [("t1", ⟨"t1", generateContentHash "hi" "zephyr" none, "zephyr", 0,
          TaskStatus.processing⟩)]
        (0 + TASK_EXPIRY_MS + 5) "hi" "zephyr" none
      ≠ some ⟨"t1", generateContentHash "hi" "zephyr" none, "zephyr", 0,
        TaskStatus.processing⟩ :=
  findActive_only_active_unexpired.2
    [("t1", ⟨"t1", generateContentHash "hi" "zephyr" none, "zephyr", 0,
      TaskStatus.processing⟩)]
    "hi" "zephyr" none 0 5
    ⟨"t1", generateContentHash "hi" "zephyr" none, "zephyr", 0,
      TaskStatus.processing⟩
    (by decide) rfl

/-- C8 counterexample: two records share the fingerprint of
`("hi", "zephyr", none)`; both are processing and unexpired at time 2000, the
first registered at time 0 and the second at time 1000.  `findActiveTask`
returns the record created at time 0 — the earliest, not the most recently
created as the claim states. -/
theorem findActive_returns_earliest_counterexample :
    findActiveTask
        [("t1", ⟨"t1", generateContentHash "hi" "zephyr" none, "zephyr", 0,
          TaskStatus.processing⟩),
         ("t2", ⟨"t2", generateContentHash "hi" "zephyr" none, "zephyr", 1000,
          TaskStatus.processing⟩)]
        2000 "hi" "zephyr" none
      = some ⟨"t1", generateContentHash "hi" "zephyr" none, "zephyr", 0,
        TaskStatus.processing⟩
    ∧ matchesActive (generateContentHash "hi" "zephyr" none) 2000
        ⟨"t2", generateContentHash "hi" "zephyr" none, "zephyr", 1000,
          TaskStatus.processing⟩ = true
    ∧ (0 : Int) < 1000 := by
  decide

/-- C8 (amended): when several records match the queried fingerprint and are
active and unexpired, `findActiveTask` returns the first such record in map
insertion order — i.e. the earliest registered one — not the most recently
created. -/
theorem findActive_returns_first_match (now : Int) (t v : String)
    (i : Option String) (pre post : Registry) (k : String) (task : ActiveTask)
    (hpre : ∀ p ∈ pre, matchesActive (generateContentHash t v i) now p.2 = false)
    (htask : matchesActive (generateContentHash t v i) now task = true) :
    findActiveTask (pre ++ (k, task) :: post) now t v i = some task := by
  unfold findActiveTask
  rw [findActiveTaskAux_append_of_no_match _ _ pre _ hpre]
  simp [findActiveTaskAux, htask]

/-- Concrete instance of C8's theorem: with an older matching record in front
and a newer matching record behind it, the older one is returned. -/
theorem findActive_returns_first_match_witness :
    findActiveTask
        [("t1", ⟨"t1", generateContentHash "hi" "zephyr" none, "zephyr", 0,
          TaskStatus.processing⟩),
         ("t2", ⟨"t2", generateContentHash "hi" "zephyr" none, "zephyr", 1000,
          TaskStatus.processing⟩)]
        2000 "hi" "zephyr" none
      = some ⟨"t1", generateContentHash "hi" "zephyr" none, "zephyr", 0,
        TaskStatus.processing⟩ :=
  findActive_returns_first_match 2000 "hi" "zephyr" none []
    [("t2", ⟨"t2", generateContentHash "hi" "zephyr" none, "zephyr", 1000,
      TaskStatus.processing⟩)]
    "t1"
    ⟨"t1", generateContentHash "hi" "zephyr" none, "zephyr", 0,
      TaskStatus.processing⟩
    (by decide) (by decide)

/-- C9: immediately after `registerTask` (no time elapsed, querying at the
same `now`), `findActiveTask` on the same (text, voice, instructions) returns
the just-registered task id, provided the task id is fresh and no other
record of the registry is an active unexpired match for that fingerprint. -/
theorem registerTask_then_findActive (reg : Registry) (taskId text voice : String)
    (i : Option String) (now : Int)
    (hfresh : (reg.any fun p => p.1 == taskId) = false)
    (hnone : ∀ p ∈ reg, matchesActive (generateContentHash text voice i) now p.2 = false) :
    (findActiveTask (registerTask reg taskId text voice i now) now text voice i).map
        ActiveTask.taskId = some taskId := by
  unfold registerTask mapSet
  rw [hfresh]
  simp only [Bool.false_eq_true, if_false]
  unfold findActiveTask
  rw [findActiveTaskAux_append_of_no_match _ _ reg _ hnone]
  have hmatch : matchesActive (generateContentHash text voice i) now
      { taskId := taskId, textHash := generateContentHash text voice i,
        voice := voice, startTime := now, status := .processing } = true := by
    simp [matchesActive, isActiveStatus, TASK_EXPIRY_MS]
  simp [findActiveTaskAux, hmatch]

/-- Concrete instance of C9's theorem: registering over a registry holding
only a terminal (completed) record of the same fingerprint, the fresh task is
found immediately. -/
theorem registerTask_then_findActive_witness :
    (findActiveTask
        (registerTask
          [("t0", ⟨"t0", generateContentHash "hi" "zephyr" none, "zephyr", 0,
            TaskStatus.completed⟩)]
          "t9" "hi" "zephyr" none 1000)
        1000 "hi" "zephyr" none).map ActiveTask.taskId = some "t9" :=
  registerTask_then_findActive
    [("t0", ⟨"t0", generateContentHash "hi" "zephyr" none, "zephyr", 0,
      TaskStatus.completed⟩)]
    "t9" "hi" "zephyr" none 1000 (by decide) (by decide)

/-- C10: `updateTaskStatus` is frame-preserving — when the task id is absent
the registry is unchanged; the registry keeps its length; every entry whose
key is not the task id is unchanged; and the entry keyed by the task id keeps
its key and its `taskId`, `textHash`, `voice` and `startTime` fields, only its
`status` becoming the given terminal status. -/
theorem updateTaskStatus_frame (reg : Registry) (taskId : String)
    (st : TerminalStatus) :
    ((reg.any fun p => p.1 == taskId) = false →
      updateTaskStatus reg taskId st = reg)
    ∧ (updateTaskStatus reg taskId st).length = reg.length
    ∧ ∀ (j : Nat) (p : String × ActiveTask), reg[j]? = some p →
      (p.1 ≠ taskId → (updateTaskStatus reg taskId st)[j]? = some p)
      ∧ (p.1 = taskId → (updateTaskStatus reg taskId st)[j]?
          = some (p.1, { p.2 with status := st.toStatus })) := by
  refine ⟨?_, by simp [updateTaskStatus], ?_⟩
  · intro habsent
    have hnone : ∀ p ∈ reg, (p.1 == taskId) = false := by
      simpa [List.any_eq_false] using habsent
    unfold updateTaskStatus
    calc reg.map (fun p => if p.1 == taskId then (p.1, { p.2 with status := st.toStatus }) else p)
        = reg.map id := List.map_congr_left fun p hp => by simp [hnone p hp]
      _ = reg := List.map_id reg
  · intro j p hj
    constructor
    · intro hne
      have hbeq : (p.1 == taskId) = false := by simpa using hne
      simp only [updateTaskStatus, List.getElem?_map, hj, Option.map_some', hbeq,
        Bool.false_eq_true, if_false]
    · intro heq
      have hbeq : (p.1 == taskId) = true := by simpa using heq
      simp only [updateTaskStatus, List.getElem?_map, hj, Option.map_some', hbeq,
        if_true]

/-- Concrete instance of C10's theorem: updating an absent task id leaves a
registry untouched. -/
theorem updateTaskStatus_frame_witness :
    updateTaskStatus
        [("t1", ⟨"t1", generateContentHash "hi" "zephyr" none, "zephyr", 0,
          TaskStatus.processing⟩)]
        "t9" TerminalStatus.completed
      = [("t1", ⟨"t1", generateContentHash "hi" "zephyr" none, "zephyr", 0,
          TaskStatus.processing⟩)] :=
  (updateTaskStatus_frame
      [("t1", ⟨"t1", generateContentHash "hi" "zephyr" none, "zephyr", 0,
        TaskStatus.processing⟩)]
      "t9" TerminalStatus.completed).1 (by decide)

end AudioDedup

namespace AudioExec

/-- C1 (code bug): at time 1000 the registry holds an active, unexpired record
for the fingerprint of `("Hello world", "zephyr", no instructions)` — so
`findActiveTask` reports a duplicate — yet a second valid, uncancelled
`execute` call for the same content still performs a backend submission,
because `execute` never consults the deduplicator.  Each of two concurrent
identical calls therefore submits, contradicting the claim that no second
submission occurs while an active duplicate exists. -/
theorem execute_submits_despite_active_duplicate :
    (AudioDedup.findActiveTask
        [("task-1", ⟨"task-1",
          AudioDedup.generateContentHash "Hello world" "zephyr" none, "zephyr",
          0, AudioDedup.TaskStatus.processing⟩)]
        1000 "Hello world" "zephyr" none).isSome = true
    ∧ executeSubmits
        [("task-1", ⟨"task-1",
          AudioDedup.generateContentHash "Hello world" "zephyr" none, "zephyr",
          0, AudioDedup.TaskStatus.processing⟩)]
        none false = true := by
  decide

end AudioExec

namespace AudioPoll

lemma pollAux_cancel_head (check : Nat → StatusResult) (c p : Int) (m r calls : Nat)
    (now : Int) (h : c ≤ now) :
    pollAux check (some c) p m (r + 1) calls now = ⟨.thrownCancelled, calls, now⟩ := by
  simp [pollAux, isAborted, h]

/-- C2 counterexample: in the audio instance (`pollInterval = 2000`), with a
status check that always reports in-progress and the cancellation signal
firing at 100 ms — mid first sleep — the loop returns Cancelled only at the
next iteration head, 2000 ms in, not within the 200 ms bound of the claim's
scenario; the in-progress sleep is not interrupted. -/
theorem poll_cancel_mid_sleep_counterexample :
    pollForCompletion (fun _ => .inProgress) (some 100)
        = ⟨.thrownCancelled, 1, 2000⟩
    ∧ ¬((pollForCompletion (fun _ => .inProgress) (some 100)).elapsed < 200) := by
  decide

/-- C2 (amended): cancellation is observed only at iteration heads — once the
signal has fired, an iteration head returns Cancelled at once with no further
status check (`calls` unchanged); and whenever the loop ends Cancelled after
the signal fired mid-iteration, it does so at the first iteration head after
the signal, i.e. at a time `elapsed` with `c ≤ elapsed < c + p` — up to one
full poll interval after the signal, the in-progress sleep never being
interrupted. -/
theorem poll_cancel_at_iteration_boundary (check : Nat → StatusResult)
    (c p : Int) (m : Nat) :
    (∀ (r calls : Nat) (now : Int), c ≤ now →
      pollAux check (some c) p m (r + 1) calls now = ⟨.thrownCancelled, calls, now⟩)
    ∧ (∀ (r calls : Nat) (now : Int), now < c →
      (pollAux check (some c) p m r calls now).result = .thrownCancelled →
        c ≤ (pollAux check (some c) p m r calls now).elapsed
          ∧ (pollAux check (some c) p m r calls now).elapsed < c + p) := by
  constructor
  · exact fun r calls now h => pollAux_cancel_head check c p m r calls now h
  · intro r
    induction r with
    | zero =>
      intro calls now _ hres
      simp [pollAux] at hres
    | succ s ih =>
      intro calls now hlt hres
      have habort : isAborted (some c) now = false := by
        simp [isAborted]; omega
      rw [pollAux, habort] at hres ⊢
      simp only [Bool.false_eq_true, if_false] at hres ⊢
      cases hck : check (m - (s + 1)) with
      | completed url d => rw [hck] at hres; simp at hres
      | failed e => rw [hck] at hres; simp at hres
      | inProgress =>
        rw [hck] at hres
        have hres' : (pollAux check (some c) p m s (calls + 1) (now + p)).result
            = PollResult.thrownCancelled := hres
        show c ≤ (pollAux check (some c) p m s (calls + 1) (now + p)).elapsed
          ∧ (pollAux check (some c) p m s (calls + 1) (now + p)).elapsed < c + p
        by_cases hc : c ≤ now + p
        · cases s with
          | zero => rw [pollAux] at hres'; simp at hres'
          | succ s' =>
            rw [pollAux_cancel_head check c p m s' (calls + 1) (now + p) hc]
            exact ⟨hc, show now + p < c + p by omega⟩
        · exact ih (calls + 1) (now + p) (by omega) hres'
      | transientError =>
        rw [hck] at hres
        cases s with
        | zero =>
          have hres' : PollResult.thrownTransient = PollResult.thrownCancelled := hres
          exact absurd hres' (by decide)
        | succ s' =>
          have hres' : (pollAux check (some c) p m (s' + 1) (calls + 1) (now + p)).result
              = PollResult.thrownCancelled := hres
          show c ≤ (pollAux check (some c) p m (s' + 1) (calls + 1) (now + p)).elapsed
            ∧ (pollAux check (some c) p m (s' + 1) (calls + 1) (now + p)).elapsed < c + p
          by_cases hc : c ≤ now + p
          · rw [pollAux_cancel_head check c p m s' (calls + 1) (now + p) hc]
            exact ⟨hc, show now + p < c + p by omega⟩
          · exact ih (calls + 1) (now + p) (by omega) hres'

set_option maxRecDepth 4000 in
/-- Concrete instance of C2's theorem: at an iteration head reached at time
100 with the signal already fired at 100, the loop returns Cancelled with no
further status check. -/
theorem poll_cancel_at_iteration_boundary_witness :
    pollAux (fun _ => StatusResult.inProgress) (some 100) 2000 150 150 0 100
      = ⟨.thrownCancelled, 0, 100⟩ :=
  (poll_cancel_at_iteration_boundary (fun _ => StatusResult.inProgress)
    100 2000 150).1 149 0 100 (by decide)

set_option maxRecDepth 100000 in
/-- C3 counterexample: in the audio instance, a status check that raises a
transient error on every attempt makes the loop rethrow the transient error
of the final attempt (after all 150 attempts), not fail with the timeout
error, contradicting the claim that an exhausted budget of transient errors
becomes a Timeout. -/
theorem poll_transient_surfaced_counterexample :
    pollForCompletion (fun _ => .transientError) none
        = ⟨.thrownTransient, 150, 298000⟩
    ∧ PollResult.thrownTransient ≠ PollResult.thrownTimeout := by
  decide

/-- C3 (amended): when every attempt reports a transient error or an
in-progress status, all the attempts of the budget run (the status check is
invoked exactly `m` times) and transient errors of non-final attempts are
retried internally; but the outcome of the final attempt decides what
surfaces — a transient error on the final attempt is rethrown to the caller
as-is, and the Timeout error is thrown only when the final attempt reported
in-progress. -/
theorem poll_budget_exhaustion_outcome (check : Nat → StatusResult) (p : Int)
    (m : Nat) (hm : 1 ≤ m)
    (h : ∀ i, i < m → check i = .transientError ∨ check i = .inProgress) :
    (pollAux check none p m m 0 0).calls = m
    ∧ (check (m - 1) = .transientError →
        (pollAux check none p m m 0 0).result = .thrownTransient)
    ∧ (check (m - 1) = .inProgress →
        (pollAux check none p m m 0 0).result = .thrownTimeout) := by
  have key : ∀ (r : Nat), 1 ≤ r → r ≤ m →
      ∀ (calls : Nat) (now : Int),
      (pollAux check none p m r calls now).calls = calls + r
      ∧ (check (m - 1) = .transientError →
          (pollAux check none p m r calls now).result = .thrownTransient)
      ∧ (check (m - 1) = .inProgress →
          (pollAux check none p m r calls now).result = .thrownTimeout) := by
    intro r
    induction r with
    | zero => intro h1 _; omega
    | succ s ih =>
      intro _ hle calls now
      have hidx : m - (s + 1) < m := by omega
      have hck := h (m - (s + 1)) hidx
      cases s with
      | zero =>
        have hlast : m - 1 = m - (0 + 1) := by omega
        rcases hck with hck | hck
        · have hval : pollAux check none p m (0 + 1) calls now
              = ⟨.thrownTransient, calls + 1, now⟩ := by
            rw [pollAux]
            simp [isAborted, hck]
          rw [hval]
          refine ⟨rfl, fun _ => rfl, fun hcontra => ?_⟩
          rw [hlast, hck] at hcontra
          exact absurd hcontra (by decide)
        · have hval : pollAux check none p m (0 + 1) calls now
              = ⟨.thrownTimeout, calls + 1, now + p⟩ := by
            rw [pollAux]
            simp only [isAborted, Bool.false_eq_true, if_false, hck]
            rw [pollAux]
          rw [hval]
          refine ⟨rfl, fun hcontra => ?_, fun _ => rfl⟩
          rw [hlast, hck] at hcontra
          exact absurd hcontra (by decide)
      | succ s' =>
        have ihs := ih (by omega) (by omega) (calls + 1) (now + p)
        have hval : pollAux check none p m (s' + 1 + 1) calls now
            = pollAux check none p m (s' + 1) (calls + 1) (now + p) := by
          rcases hck with hck | hck
          · rw [pollAux]
            simp only [isAborted, Bool.false_eq_true, if_false, hck,
              Nat.succ_ne_zero, if_false]
          · rw [pollAux]
            simp only [isAborted, Bool.false_eq_true, if_false, hck]
        rw [hval]
        exact ⟨by rw [ihs.1]; omega, ihs.2.1, ihs.2.2⟩
  have hkey := key m hm le_rfl 0 0
  exact ⟨by rw [hkey.1]; omega, hkey.2.1, hkey.2.2⟩

/-- Concrete instance of C3's theorem: a budget of two attempts, both raising
transient errors, ends with the transient error rethrown after exactly two
status checks. -/
theorem poll_budget_exhaustion_outcome_witness :
    (pollAux (fun _ => StatusResult.transientError) none 2000 2 2 0 0).result
        = PollResult.thrownTransient
    ∧ (pollAux (fun _ => StatusResult.transientError) none 2000 2 2 0 0).calls = 2 :=
  ⟨((poll_budget_exhaustion_outcome (fun _ => StatusResult.transientError) 2000 2
      (by decide) (fun _ _ => Or.inl rfl)).2.1) rfl,
   (poll_budget_exhaustion_outcome (fun _ => StatusResult.transientError) 2000 2
      (by decide) (fun _ _ => Or.inl rfl)).1⟩

lemma pollAux_all_in_progress (check : Nat → StatusResult) (p : Int) (m : Nat)
    (h : ∀ i, i < m → check i = .inProgress) :
    ∀ (r : Nat), r ≤ m → ∀ (calls : Nat) (now : Int),
      pollAux check none p m r calls now
        = ⟨.thrownTimeout, calls + r, now + p * (r : Int)⟩ := by
  intro r
  induction r with
  | zero => intro _ calls now; simp [pollAux]
  | succ s ih =>
    intro hle calls now
    have hck := h (m - (s + 1)) (by omega)
    rw [pollAux]
    simp only [isAborted, Bool.false_eq_true, if_false, hck]
    rw [ih (by omega) (calls + 1) (now + p)]
    have hcalls : calls + 1 + s = calls + (s + 1) := by omega
    have htime : now + p + p * (s : Int) = now + p * ((s + 1 : Nat) : Int) := by
      push_cast
      ring
    rw [hcalls, htime]

/-- C6: for every poll loop instance with attempt budget `m`, if every status
check reports in-progress, the loop throws the timeout error and the status
check is invoked exactly `m` times, never more. -/
theorem poll_all_in_progress_times_out (check : Nat → StatusResult) (p : Int)
    (m : Nat) (h : ∀ i, i < m → check i = .inProgress) :
    (pollAux check none p m m 0 0).result = .thrownTimeout
    ∧ (pollAux check none p m m 0 0).calls = m := by
  rw [pollAux_all_in_progress check p m h m le_rfl 0 0]
  exact ⟨rfl, by simp⟩

/-- Concrete instance of C6's theorem: a three-attempt budget with an
always-in-progress status check times out after exactly three checks. -/
theorem poll_all_in_progress_times_out_witness :
    (pollAux (fun _ => StatusResult.inProgress) none 2000 3 3 0 0).result
        = PollResult.thrownTimeout
    ∧ (pollAux (fun _ => StatusResult.inProgress) none 2000 3 3 0 0).calls = 3 :=
  poll_all_in_progress_times_out (fun _ => StatusResult.inProgress) 2000 3
    (fun _ _ => rfl)

/-- C7: for every poll loop instance whose budget is at least one attempt and
whose signal has not fired at the start, if the first status check already
reports a terminal outcome — completed or failed — the loop returns that
outcome immediately, with zero elapsed sleep time and exactly one status
check. -/
theorem poll_first_terminal_short_circuit (check : Nat → StatusResult)
    (cancelAt : Option Int) (p : Int) (m : Nat) (hm : 1 ≤ m)
    (hc : isAborted cancelAt 0 = false) :
    (∀ (url : String) (d : Option Int), check 0 = .completed url d →
      pollAux check cancelAt p m m 0 0 = ⟨.success url d, 1, 0⟩)
    ∧ (∀ (e : Option String), check 0 = .failed e →
      pollAux check cancelAt p m m 0 0 = ⟨.failureResult e, 1, 0⟩) := by
  obtain ⟨r, rfl⟩ : ∃ r, m = r + 1 := ⟨m - 1, by omega⟩
  constructor
  · intro url d hck
    rw [pollAux, hc]
    simp only [Bool.false_eq_true, if_false, Nat.sub_self, hck]
  · intro e hck
    rw [pollAux, hc]
    simp only [Bool.false_eq_true, if_false, Nat.sub_self, hck]

/-- Concrete instance of C7's theorem: the audio instance with a first status
check reporting completion returns the success immediately — one check, no
sleep. -/
theorem poll_first_terminal_short_circuit_witness :
    pollForCompletion (fun _ => StatusResult.completed "url" (some 42)) none
      = ⟨PollResult.success "url" (some 42), 1, 0⟩ :=
  (poll_first_terminal_short_circuit
    (fun _ => StatusResult.completed "url" (some 42)) none 2000 150
    (by decide) rfl).1 "url" (some 42) rfl

end AudioPoll
